import Mathlib

/-!
# Verification of the Tree-Species-Classification pipeline (src/app.py)

Shallow embedding of the image-submission and result-interpretation
pipeline of the Streamlit app: image normalization (`process_image`),
confidence bucketing (`get_confidence_class`, `format_confidence`),
request assembly, HTTP outcome classification, defensive result parsing
and the aggregate statistics of the analysis summary.

Python numbers are modelled as exact rationals (`ℚ`); the Python `round`
builtin (round half to even) is modelled explicitly.  JSON values are
modelled by an inductive type, and Python attribute/type errors on
ill-typed values by `Except`.
-/

set_option autoImplicit false

namespace TreeSpec

/-! ## The Python round builtin (round half to even), over `ℚ` -/

/-- Model of the Python builtin `round(q)` to an integer: round half to
even. -/
def pyRoundInt (q : ℚ) : ℤ :=
  let f := ⌊q⌋
  if q - f = 1/2 then (if f % 2 = 0 then f else f + 1) else round q

/-- Model of the Python call `round(q, 2)`: round to two decimal places. -/
def pyRound2 (q : ℚ) : ℚ := (pyRoundInt (q * 100) : ℚ) / 100

/-! ## Confidence bucketing (app.py lines 224 to 240) -/

/-- `get_confidence_class(score)` from app.py: CSS class for a percentage
score. -/
def get_confidence_class (score : ℚ) : String :=
  if score ≥ 70 then "confidence-high"
  else if score ≥ 40 then "confidence-medium"
  else "confidence-low"

/-- `format_confidence(score)` from app.py: formatted confidence string
with emoji. -/
def format_confidence (score : ℚ) : String :=
  if score ≥ 70 then "🟢 " ++ toString score ++ "% (High Confidence)"
  else if score ≥ 40 then "🟡 " ++ toString score ++ "% (Medium Confidence)"
  else "🔴 " ++ toString score ++ "% (Low Confidence)"

/-! ## JSON values and Python dictionary access -/

/-- JSON values, as produced by `response.json()`. -/
inductive Json where
  | null
  | bool (b : Bool)
  | num (q : ℚ)
  | str (s : String)
  | arr (elems : List Json)
  | obj (fields : List (String × Json))

/-- Python truthiness of a JSON value (`if results:`). -/
def Json.truthy : Json → Bool
  | .null => false
  | .bool b => b
  | .num q => decide (q ≠ 0)
  | .str s => decide (s ≠ "")
  | .arr l => !l.isEmpty
  | .obj kvs => !kvs.isEmpty

/-- The Python expression `x.get(key, default)`: succeeds with the stored
value (or the default when the key is absent) when `x` is a dictionary,
and raises AttributeError on any non-dictionary value (including None). -/
def dictGet (j : Json) (key : String) (dflt : Json) : Except String Json :=
  match j with
  | .obj kvs => .ok ((kvs.lookup key).getD dflt)
  | _ => .error "AttributeError"

/-- A JSON value usable in the Python arithmetic `round(score * 100, 2)`:
a number, or a boolean (the Python bool type is an int subclass, so
`round(True * 100, 2)` is `100.0`); `None`, a string, a list or an object
makes the expression raise TypeError (for a string or list the
multiplication repeats it and `round` then rejects it). -/
def asNum (j : Json) : Except String ℚ :=
  match j with
  | .num q => .ok q
  | .bool b => .ok (if b then 1 else 0)
  | _ => .error "TypeError"

/-! ## Per-result field extraction (app.py lines 269 to 275) -/

/-- One parsed species match (the variables of the display loop body). -/
structure SpeciesMatch where
  name : Json
  common : Json
  score : ℚ
  family : Json
  genus : Json

/-- The field extraction performed for one element `r` of the `results`
array (app.py lines 270 to 275).  Any AttributeError or TypeError raised
there propagates out of the display loop (it is caught only by the
outermost `except Exception` of the handler). -/
def parseRecord (r : Json) : Except String SpeciesMatch := do
  let species ← dictGet r "species" (.obj [])
  let name ← dictGet species "scientificNameWithoutAuthor" (.str "Unknown Species")
  let common ← dictGet species "commonNames" (.arr [])
  let scoreJ ← dictGet r "score" (.num 0)
  let scoreQ ← asNum scoreJ
  let score := pyRound2 (scoreQ * 100)
  let fam ← dictGet species "family" (.obj [])
  let family ← dictGet fam "scientificNameWithoutAuthor" (.str "Unknown Family")
  let gen ← dictGet species "genus" (.obj [])
  let genus ← dictGet gen "scientificNameWithoutAuthor" (.str "Unknown Genus")
  pure ⟨name, common, score, family, genus⟩

/-- Parsing a batch of result records: the display loop raises out of the
whole handler at the first failing record. -/
def parseBatch (records : List Json) : Except String (List SpeciesMatch) :=
  records.mapM parseRecord

/-- Well-typedness of a result record: it is an object, and each relevant
field that is present has the type the extraction code dereferences
(`species`, `species.family`, `species.genus` objects; `score` a number;
`species.commonNames` an array).  Fields may freely be absent. -/
def wfRecord (r : Json) : Bool :=
  match r with
  | .obj kvs =>
    (match kvs.lookup "species" with
     | none => true
     | some (.obj skvs) =>
       (match skvs.lookup "family" with
        | none => true | some (.obj _) => true | some _ => false) &&
       (match skvs.lookup "genus" with
        | none => true | some (.obj _) => true | some _ => false) &&
       (match skvs.lookup "commonNames" with
        | none => true | some (.arr _) => true | some _ => false)
     | some _ => false) &&
    (match kvs.lookup "score" with
     | none => true | some (.num _) => true | some _ => false)
  | _ => false

/-! ## Aggregate statistics (app.py lines 296 to 310) -/

/-- The score expression of the summary metrics:
`r.get("score", 0) * 100`. -/
def aggScore (r : Json) : Except String ℚ := do
  let scoreJ ← dictGet r "score" (.num 0)
  let q ← asNum scoreJ
  pure (q * 100)

/-- The Python builtin `max` over a non-empty list (the code guards
`results` non-empty). -/
def listMax : List ℚ → ℚ
  | [] => 0
  | x :: xs => xs.foldl max x

/-- The Python builtin `sum` over a list of rationals. -/
def listSum (l : List ℚ) : ℚ := l.foldl (· + ·) 0

/-- Aggregate statistics of the analysis summary. -/
structure AggregateStats where
  count : ℕ
  best : ℚ
  avg : ℚ
  deriving DecidableEq, Repr

/-- The success path of the handler for a non-empty `results` array:
the display loop parses `results[:max_results]` (app.py line 269) while
the summary metrics (app.py lines 296 to 310) are computed over the full
`results` list. -/
def interpretAll (results : List Json) (maxResults : ℕ) :
    Except String (List SpeciesMatch × AggregateStats) := do
  let displayed ← parseBatch (results.take maxResults)
  let scores ← results.mapM aggScore
  pure (displayed,
    ⟨results.length, listMax scores, listSum scores / results.length⟩)

/-! ## Outcome classification (app.py lines 256 to 326) -/

/-- What the single `requests.post` call can produce, as seen by the
`try` block of the handler: an HTTP response (status code, body text, and
the result of `response.json()` when the body parses as JSON), a
Timeout exception from the requests library, or another
RequestException. -/
inductive TransportResult where
  | response (status : ℕ) (text : String) (parsed : Option Json)
  | timeoutExn
  | requestExn (msg : String)

/-- The terminal outcome of one identification attempt, one constructor
per distinguishable message class of the handler. -/
inductive Outcome where
  | success (results : List Json)
  | empty
  | apiError (status : ℕ) (body : String)
  | timeout
  | networkError (msg : String)
  | unexpected (msg : String)

/-- The branching of the handler (app.py lines 259 to 326): status 200
reads `response.json()` and `result.get("results", [])`, truthiness
decides success versus the no-matches warning; any other status reports
`response.status_code` and `response.text` without touching the JSON;
Timeout and RequestException are caught by their own except arms, and
anything else by the final `except Exception`. -/
def classify (t : TransportResult) : Outcome :=
  match t with
  | .response status text parsed =>
    if status = 200 then
      match parsed with
      | none => .unexpected "json decode error"
      | some body =>
        match body with
        | .obj kvs =>
          let results := (kvs.lookup "results").getD (.arr [])
          if results.truthy then
            match results with
            | .arr l => .success l
            | _ => .unexpected "TypeError"
          else .empty
        | _ => .unexpected "AttributeError"
    else .apiError status text
  | .timeoutExn => .timeout
  | .requestExn msg => .networkError msg

/-! ## Request assembly (app.py lines 242 to 257) -/

/-- One part of the multipart form: field name, filename, content type,
as in the tuple `("images", ("imgN.png", fileN, "image/png"))`. -/
structure FormPart where
  field : String
  filename : String
  contentType : String
  deriving DecidableEq, Repr

/-- The fixed endpoint (`API_URL` in app.py). -/
def API_URL : String := "https://my-api.plantnet.org/v2/identify/all"

/-- The assembled POST request: URL, multipart parts, query parameters,
timeout in seconds. -/
structure PostRequest where
  url : String
  files : List FormPart
  params : List (String × String)
  timeoutSeconds : ℕ
  deriving DecidableEq, Repr

/-- The request built by the handler (app.py lines 246 to 257): part
`("images", ("img1.png", file1, "image/png"))`, a second part
`("images", ("img2.png", file2, "image/png"))` when a secondary image was
uploaded, `params = {"api-key": API_KEY}`, and `timeout=30`. -/
def buildRequest (apiKey : String) (hasSecondImage : Bool) : PostRequest :=
  let files := [⟨"images", "img1.png", "image/png"⟩] ++
    (if hasSecondImage then [⟨"images", "img2.png", "image/png"⟩] else [])
  ⟨API_URL, files, [("api-key", apiKey)], 30⟩

/-! ## Side effects of the handler (app.py lines 242 to 338) -/

/-- Observable side effects of the classification handler, in program
order. -/
inductive Eff where
  | makeDirs (dir : String)
  | fsWrite (file : String)
  | fsOpen (file : String)
  | netPost (url : String)
  | fsClose (file : String)
  | fsRemove (file : String)
  deriving DecidableEq, Repr

/-- Whether an effect is a network call. -/
def isNetEff : Eff → Bool
  | .netPost _ => true
  | _ => false

/-- The effects of a completed `process_image` call (app.py lines 213 to
222): `img.save` writes the PNG to disk and `open(filename, "rb")`
reopens it.  A call that raises instead contributes a prefix: nothing
when `Image.open` rejects the bytes (it raises before any write). -/
def processImageEffects (filename : String) : List Eff :=
  [.fsWrite filename, .fsOpen filename]

/-- The effect trace of a run of the classification handler in which
every step completes (app.py lines 242 to 338): create the `images`
directory, normalize each uploaded image through a temp file, POST once,
then close and remove the temp files in the `finally` block.  The
normalizations at lines 246 and 250 run before the `try` at line 256 and
may instead raise; `pipelineEffectsSecondFails` traces such a run. -/
def pipelineEffects (hasSecondImage : Bool) : List Eff :=
  [.makeDirs "images"] ++
  processImageEffects "images/img1.png" ++
  (if hasSecondImage then processImageEffects "images/img2.png" else []) ++
  [.netPost API_URL] ++
  [.fsClose "images/img1.png"] ++
  (if hasSecondImage then [.fsClose "images/img2.png"] else []) ++
  [.fsRemove "images/img1.png"] ++
  (if hasSecondImage then [.fsRemove "images/img2.png"] else [])

/-- The effect trace of a two-image run whose second normalization raises
at `Image.open` (app.py line 250, undecodable upload): the exception
escapes before the `try` at line 256, so there is no POST and the
`finally` cleanup at lines 327 to 338 never runs — `images/img1.png` has
already been written and opened and is neither closed nor removed. -/
def pipelineEffectsSecondFails : List Eff :=
  [.makeDirs "images"] ++ processImageEffects "images/img1.png"

/-! ## Image normalization (app.py lines 213 to 222) -/

/-- PIL image modes that `Image.open` can produce for the accepted upload
formats (JPEG and PNG). -/
inductive Mode where
  | oneBit   -- the PIL mode "1"
  | L | LA | I | P | RGB | RGBA | CMYK
  deriving DecidableEq, Repr

/-- Modes a decoded PNG file can have in PIL. -/
def pngModes : List Mode := [.oneBit, .L, .LA, .I, .P, .RGB, .RGBA]

/-- Modes a decoded JPEG file can have in PIL. -/
def jpegModes : List Mode := [.L, .RGB, .CMYK]

/-- Whether a mode carries an alpha channel. -/
def hasAlpha : Mode → Bool
  | .RGBA => true
  | .LA => true
  | _ => false

/-- An in-memory PIL image: mode and pixel dimensions. -/
structure PILImage where
  mode : Mode
  width : ℕ
  height : ℕ
  deriving DecidableEq, Repr

/-- The helper `round_aspect(number, key)` of `Image.thumbnail` in PIL:
pick whichever of floor and ceil has the smaller key (ties go to floor,
the first argument of the Python `min`), but never below 1. -/
def roundAspect (q : ℚ) (keyFloor keyCeil : ℚ) : ℕ :=
  (max (if keyFloor ≤ keyCeil then ⌊q⌋ else ⌈q⌉) 1).toNat

/-- The rounded width of a thumbnail of an image at least as tall as
wide: the branch `x = round_aspect(y * aspect, key=...)` of the PIL
thumbnail computation, with `y = 1024`. -/
def tallWidth (w h : ℕ) : ℕ :=
  roundAspect (1024 * ((w : ℚ) / h))
    |(w : ℚ) / h - (⌊1024 * ((w : ℚ) / h)⌋ : ℚ) / 1024|
    |(w : ℚ) / h - (⌈1024 * ((w : ℚ) / h)⌉ : ℚ) / 1024|

/-- The rounded height of a thumbnail of an image wider than tall: the
branch `y = round_aspect(x / aspect, key=...)` of the PIL thumbnail
computation, with `x = 1024`. -/
def wideHeight (w h : ℕ) : ℕ :=
  roundAspect (1024 / ((w : ℚ) / h))
    (if (⌊1024 / ((w : ℚ) / h)⌋ : ℚ) = 0 then 0
      else |(w : ℚ) / h - 1024 / (⌊1024 / ((w : ℚ) / h)⌋ : ℚ)|)
    (if (⌈1024 / ((w : ℚ) / h)⌉ : ℚ) = 0 then 0
      else |(w : ℚ) / h - 1024 / (⌈1024 / ((w : ℚ) / h)⌉ : ℚ)|)

/-- The size computation of `Image.thumbnail((1024, 1024), LANCZOS)` in
PIL: no-op when the image already fits, otherwise scale the larger
dimension to 1024 and round the other to keep the aspect ratio
`width / height`. -/
def thumbnailFit (w h : ℕ) : ℕ × ℕ :=
  if w ≤ 1024 ∧ h ≤ 1024 then (w, h)
  else if 1 ≥ (w : ℚ) / h then (tallWidth w h, 1024)
  else (1024, wideHeight w h)

/-- The in-memory part of `process_image` (app.py lines 215 to 220) at
the level of mode and dimensions: convert RGBA and P images to RGB, then
bound oversized images to 1024 by 1024 with `thumbnail`. -/
def normalizeBuffer (img : PILImage) : PILImage :=
  let img1 :=
    if img.mode = .RGBA ∨ img.mode = .P then
      { img with mode := .RGB }
    else img
  if img1.width > 1024 ∨ img1.height > 1024 then
    let wh := thumbnailFit img1.width img1.height
    { img1 with width := wh.1, height := wh.2 }
  else img1

/-- Whether Pillow can encode a buffer mode as PNG: every decodable mode
except CMYK (PNG has no CMYK color type; `img.save(..., format="PNG")`
raises OSError for a CMYK buffer). -/
def pngSaveOk : Mode → Bool
  | .CMYK => false
  | _ => true

/-- `process_image` (app.py lines 213 to 222): normalize the buffer in
memory, then `img.save(filename, format="PNG")`, which writes the buffer
unchanged in mode and size for PNG-encodable modes but raises OSError for
a CMYK buffer (so a CMYK JPEG yields no output). -/
def process_image (img : PILImage) : Except String PILImage :=
  let out := normalizeBuffer img
  if pngSaveOk out.mode then .ok out else .error "OSError"

/-! ## Concrete inputs used by scenario claims -/

/-- A result record with the given fractional score and a species name. -/
def mkScoreRecord (q : ℚ) : Json :=
  .obj [("species", .obj [("scientificNameWithoutAuthor", .str "SpeciesName")]),
        ("score", .num q)]

/-- The three records of scenario A: fractional scores 0.91, 0.55, 0.20. -/
def scenarioRecords : List Json :=
  [mkScoreRecord (91/100), mkScoreRecord (55/100), mkScoreRecord (20/100)]

/-- A record whose `species` field is present but null: the nested
`species.get(...)` calls raise AttributeError on it. -/
def nullSpeciesRecord : Json := .obj [("species", Json.null)]

end TreeSpec

namespace TreeSpec

/-! ## Helper lemmas -/

theorem exceptOk_bind {α β : Type} (a : α) (f : α → Except String β) :
    (Except.ok a >>= f) = f a := rfl

theorem exceptError_bind {α β : Type} (e : String) (f : α → Except String β) :
    ((Except.error e : Except String α) >>= f) = Except.error e := rfl

theorem exceptMap_ok {α β : Type} (a : α) (f : α → β) :
    (f <$> (Except.ok a : Except String α)) = Except.ok (f a) := rfl

theorem exceptPure_eq_ok {α : Type} (a : α) :
    (pure a : Except String α) = Except.ok a := rfl

/-- A well-typed record parses successfully. -/
theorem wf_parseRecord_isOk (r : Json) (hwf : wfRecord r = true) :
    (parseRecord r).isOk = true := by
  cases r with
  | obj kvs =>
    simp only [wfRecord, Bool.and_eq_true] at hwf
    obtain ⟨hsp, hsc⟩ := hwf
    have hscore : ∃ q, (kvs.lookup "score").getD (.num 0) = Json.num q := by
      cases hscq : kvs.lookup "score" with
      | none => exact ⟨0, rfl⟩
      | some v =>
        rw [hscq] at hsc
        cases v <;> simp at hsc ⊢
    obtain ⟨q, hq⟩ := hscore
    cases hspq : kvs.lookup "species" with
    | none =>
      simp [parseRecord, dictGet, asNum, hspq, hq, exceptOk_bind,
        exceptPure_eq_ok, Except.isOk, Except.toBool]
    | some v =>
      rw [hspq] at hsp
      cases v with
      | obj skvs =>
        simp only [Bool.and_eq_true] at hsp
        obtain ⟨⟨hfam, hgen⟩, _⟩ := hsp
        have hfam2 : ∃ fkvs, (skvs.lookup "family").getD (.obj []) = Json.obj fkvs := by
          cases hf : skvs.lookup "family" with
          | none => exact ⟨[], rfl⟩
          | some v =>
            rw [hf] at hfam
            cases v <;> simp at hfam ⊢
        have hgen2 : ∃ gkvs, (skvs.lookup "genus").getD (.obj []) = Json.obj gkvs := by
          cases hg : skvs.lookup "genus" with
          | none => exact ⟨[], rfl⟩
          | some v =>
            rw [hg] at hgen
            cases v <;> simp at hgen ⊢
        obtain ⟨fkvs, hf2⟩ := hfam2
        obtain ⟨gkvs, hg2⟩ := hgen2
        simp [parseRecord, dictGet, asNum, hspq, hq, hf2, hg2, exceptOk_bind,
          exceptPure_eq_ok, Except.isOk, Except.toBool]
      | null => simp at hsp
      | bool b => simp at hsp
      | num q2 => simp at hsp
      | str s => simp at hsp
      | arr l => simp at hsp
  | null => simp [wfRecord] at hwf
  | bool b => simp [wfRecord] at hwf
  | num q => simp [wfRecord] at hwf
  | str s => simp [wfRecord] at hwf
  | arr l => simp [wfRecord] at hwf

/-- A batch of well-typed records parses successfully, one match per
record. -/
theorem wf_parseBatch_length (records : List Json)
    (hwf : ∀ r ∈ records, wfRecord r = true) :
    (parseBatch records).map List.length = .ok records.length := by
  induction records with
  | nil => rfl
  | cons x xs ih =>
    have hx := wf_parseRecord_isOk x (hwf x (by simp))
    unfold parseBatch at ih ⊢
    rw [List.mapM_cons]
    cases hpx : parseRecord x with
    | error e => rw [hpx] at hx; simp [Except.isOk, Except.toBool] at hx
    | ok m =>
      rw [exceptOk_bind]
      cases hxs : xs.mapM parseRecord with
      | error e =>
        have ihx := ih (fun r hr => hwf r (by simp [hr]))
        rw [hxs] at ihx
        simp [Except.map] at ihx
      | ok ms =>
        have ihx := ih (fun r hr => hwf r (by simp [hr]))
        rw [hxs] at ihx
        simp [Except.map] at ihx
        simp [Except.map, exceptOk_bind, exceptPure_eq_ok, ihx]

/-- Closed form of the field extraction on an object record whose typed
fields are given. -/
theorem parseRecord_obj_eval (kvs skvs fkvs gkvs : List (String × Json))
    (q : ℚ)
    (hspec : (kvs.lookup "species").getD (.obj []) = .obj skvs)
    (hscore : (kvs.lookup "score").getD (.num 0) = .num q)
    (hfam : (skvs.lookup "family").getD (.obj []) = .obj fkvs)
    (hgen : (skvs.lookup "genus").getD (.obj []) = .obj gkvs) :
    parseRecord (.obj kvs) = .ok
      ⟨(skvs.lookup "scientificNameWithoutAuthor").getD (.str "Unknown Species"),
       (skvs.lookup "commonNames").getD (.arr []),
       pyRound2 (q * 100),
       (fkvs.lookup "scientificNameWithoutAuthor").getD (.str "Unknown Family"),
       (gkvs.lookup "scientificNameWithoutAuthor").getD (.str "Unknown Genus")⟩ := by
  simp [parseRecord, dictGet, asNum, hspec, hscore, hfam, hgen,
    exceptOk_bind, exceptPure_eq_ok]

/-- A well-typed record stores a number (or nothing) under `score`. -/
theorem wf_score_num (kvs : List (String × Json))
    (hrec : wfRecord (.obj kvs) = true) :
    ∃ q, (kvs.lookup "score").getD (.num 0) = .num q := by
  simp only [wfRecord, Bool.and_eq_true] at hrec
  obtain ⟨_, hsc⟩ := hrec
  cases hscq : kvs.lookup "score" with
  | none => exact ⟨0, rfl⟩
  | some v =>
    rw [hscq] at hsc
    cases v <;> simp at hsc ⊢

/-- A well-typed record with a species object stores an object (or
nothing) under `species.family`. -/
theorem wf_family_obj (kvs skvs : List (String × Json))
    (hrec : wfRecord (.obj kvs) = true)
    (hspec : kvs.lookup "species" = some (.obj skvs)) :
    ∃ fkvs, (skvs.lookup "family").getD (.obj []) = .obj fkvs := by
  simp only [wfRecord, Bool.and_eq_true] at hrec
  obtain ⟨hsp, _⟩ := hrec
  rw [hspec] at hsp
  simp only [Bool.and_eq_true] at hsp
  obtain ⟨⟨hfam, _⟩, _⟩ := hsp
  cases hf : skvs.lookup "family" with
  | none => exact ⟨[], rfl⟩
  | some v =>
    rw [hf] at hfam
    cases v <;> simp at hfam ⊢

/-- A well-typed record with a species object stores an object (or
nothing) under `species.genus`. -/
theorem wf_genus_obj (kvs skvs : List (String × Json))
    (hrec : wfRecord (.obj kvs) = true)
    (hspec : kvs.lookup "species" = some (.obj skvs)) :
    ∃ gkvs, (skvs.lookup "genus").getD (.obj []) = .obj gkvs := by
  simp only [wfRecord, Bool.and_eq_true] at hrec
  obtain ⟨hsp, _⟩ := hrec
  rw [hspec] at hsp
  simp only [Bool.and_eq_true] at hsp
  obtain ⟨⟨_, hgen⟩, _⟩ := hsp
  cases hg : skvs.lookup "genus" with
  | none => exact ⟨[], rfl⟩
  | some v =>
    rw [hg] at hgen
    cases v <;> simp at hgen ⊢

/-- The score stored by the field extraction on a well-typed record. -/
theorem wf_parseRecord_score (kvs : List (String × Json))
    (hrec : wfRecord (.obj kvs) = true) (q : ℚ)
    (hq : (kvs.lookup "score").getD (.num 0) = .num q) :
    (parseRecord (.obj kvs)).map SpeciesMatch.score =
      .ok (pyRound2 (q * 100)) := by
  cases hspq : kvs.lookup "species" with
  | none =>
    have heval := parseRecord_obj_eval kvs [] [] [] q (by rw [hspq]; rfl)
      hq rfl rfl
    rw [heval]
    simp [Except.map]
  | some v =>
    have hrec2 := hrec
    simp only [wfRecord, Bool.and_eq_true] at hrec2
    obtain ⟨hsp, _⟩ := hrec2
    rw [hspq] at hsp
    cases v with
    | obj skvs =>
      obtain ⟨fkvs, hf⟩ := wf_family_obj kvs skvs hrec hspq
      obtain ⟨gkvs, hg⟩ := wf_genus_obj kvs skvs hrec hspq
      have heval := parseRecord_obj_eval kvs skvs fkvs gkvs q
        (by rw [hspq]; rfl) hq hf hg
      rw [heval]
      simp [Except.map]
    | null => simp at hsp
    | bool b => simp at hsp
    | num q2 => simp at hsp
    | str s => simp at hsp
    | arr l => simp at hsp

/-- Pulling the seed of a max fold out in front. -/
theorem foldl_max_comm (l : List ℚ) :
    ∀ a b : ℚ, l.foldl max (max a b) = max a (l.foldl max b) := by
  induction l with
  | nil => intro a b; rfl
  | cons c l ih =>
    intro a b
    simp only [List.foldl]
    rw [max_assoc, ih]

/-- Closed-form evaluation of the scenario A run (3 results, fractional
scores 0.91, 0.55, 0.20, maxResults 2). -/
theorem scenarioA_eval : interpretAll scenarioRecords 2 =
    .ok ([⟨.str "SpeciesName", .arr [], pyRound2 (91/100 * 100),
           .str "Unknown Family", .str "Unknown Genus"⟩,
          ⟨.str "SpeciesName", .arr [], pyRound2 (55/100 * 100),
           .str "Unknown Family", .str "Unknown Genus"⟩],
         ⟨3, listMax [91/100 * 100, 55/100 * 100, 20/100 * 100],
          listSum [91/100 * 100, 55/100 * 100, 20/100 * 100] / 3⟩) := rfl

/-- Bounds for the rounding helper of the PIL thumbnail computation: the
result is at least 1, at most 1024 when the exact value is, and within 1
of the exact value, for any choice keys. -/
theorem roundAspect_bounds (q kF kC : ℚ) (hq : 0 < q) :
    1 ≤ roundAspect q kF kC ∧
    (q ≤ 1024 → roundAspect q kF kC ≤ 1024) ∧
    |(roundAspect q kF kC : ℚ) - q| ≤ 1 := by
  unfold roundAspect
  set pick : ℤ := if kF ≤ kC then ⌊q⌋ else ⌈q⌉ with hpick
  have hfloor_le : ⌊q⌋ ≤ pick := by
    rw [hpick]; split_ifs
    · exact le_refl _
    · exact Int.floor_le_ceil q
  have hle_ceil : pick ≤ ⌈q⌉ := by
    rw [hpick]; split_ifs
    · exact Int.floor_le_ceil q
    · exact le_refl _
  have hceil_ge1 : 1 ≤ ⌈q⌉ := Int.ceil_pos.mpr hq
  have hm_ge1 : (1 : ℤ) ≤ max pick 1 := le_max_right _ _
  have hm_le_ceil : max pick 1 ≤ ⌈q⌉ := max_le hle_ceil hceil_ge1
  have hm_ge_floor : ⌊q⌋ ≤ max pick 1 := le_trans hfloor_le (le_max_left _ _)
  refine ⟨by omega, fun hle => ?_, ?_⟩
  · have hceil_le : ⌈q⌉ ≤ 1024 := Int.ceil_le.mpr (by exact_mod_cast hle)
    omega
  · have hcast : (((max pick 1).toNat : ℕ) : ℚ) = ((max pick 1 : ℤ) : ℚ) := by
      have h0 : ((max pick 1).toNat : ℤ) = max pick 1 :=
        Int.toNat_of_nonneg (by omega)
      exact_mod_cast congrArg (fun z : ℤ => (z : ℚ)) h0
    rw [hcast, abs_le]
    have hflQ : q - 1 < ((⌊q⌋ : ℤ) : ℚ) := Int.sub_one_lt_floor q
    have hclQ : ((⌈q⌉ : ℤ) : ℚ) < q + 1 := Int.ceil_lt_add_one q
    have hlow : ((⌊q⌋ : ℤ) : ℚ) ≤ ((max pick 1 : ℤ) : ℚ) := by
      exact_mod_cast hm_ge_floor
    have hhigh : ((max pick 1 : ℤ) : ℚ) ≤ ((⌈q⌉ : ℤ) : ℚ) := by
      exact_mod_cast hm_le_ceil
    constructor <;> linarith

/-- Bounds for the tall branch of the thumbnail computation. -/
theorem tallWidth_bounds (w h : ℕ) (hw : 1 ≤ w) (hh : 1 ≤ h)
    (hasp : (w : ℚ) / h ≤ 1) :
    1 ≤ tallWidth w h ∧ tallWidth w h ≤ 1024 ∧
    |(tallWidth w h : ℚ) - 1024 * ((w : ℚ) / h)| ≤ 1 := by
  have hwQ : (0 : ℚ) < w := by
    exact_mod_cast Nat.lt_of_lt_of_le Nat.zero_lt_one hw
  have hhQ : (0 : ℚ) < h := by
    exact_mod_cast Nat.lt_of_lt_of_le Nat.zero_lt_one hh
  have hnpos : (0 : ℚ) < 1024 * ((w : ℚ) / h) := by positivity
  have hnle : 1024 * ((w : ℚ) / h) ≤ 1024 := by nlinarith
  obtain ⟨h1, h1024, hnear⟩ := roundAspect_bounds (1024 * ((w : ℚ) / h))
    |(w : ℚ) / h - (⌊1024 * ((w : ℚ) / h)⌋ : ℚ) / 1024|
    |(w : ℚ) / h - (⌈1024 * ((w : ℚ) / h)⌉ : ℚ) / 1024| hnpos
  exact ⟨h1, h1024 hnle, hnear⟩

/-- Bounds for the wide branch of the thumbnail computation. -/
theorem wideHeight_bounds (w h : ℕ) (hw : 1 ≤ w) (hh : 1 ≤ h)
    (hasp : (1 : ℚ) < (w : ℚ) / h) :
    1 ≤ wideHeight w h ∧ wideHeight w h ≤ 1024 ∧
    |(wideHeight w h : ℚ) - 1024 / ((w : ℚ) / h)| ≤ 1 := by
  have hwQ : (0 : ℚ) < w := by
    exact_mod_cast Nat.lt_of_lt_of_le Nat.zero_lt_one hw
  have hhQ : (0 : ℚ) < h := by
    exact_mod_cast Nat.lt_of_lt_of_le Nat.zero_lt_one hh
  have hnpos : (0 : ℚ) < 1024 / ((w : ℚ) / h) := by positivity
  have hnle : 1024 / ((w : ℚ) / h) ≤ 1024 :=
    div_le_self (by norm_num) (le_of_lt hasp)
  obtain ⟨h1, h1024, hnear⟩ := roundAspect_bounds (1024 / ((w : ℚ) / h))
    (if (⌊1024 / ((w : ℚ) / h)⌋ : ℚ) = 0 then 0
      else |(w : ℚ) / h - 1024 / (⌊1024 / ((w : ℚ) / h)⌋ : ℚ)|)
    (if (⌈1024 / ((w : ℚ) / h)⌉ : ℚ) = 0 then 0
      else |(w : ℚ) / h - 1024 / (⌈1024 / ((w : ℚ) / h)⌉ : ℚ)|) hnpos
  exact ⟨h1, h1024 hnle, hnear⟩

/-- Bounds for the PIL thumbnail size computation: both output dimensions
lie in [1, 1024] and the aspect ratio is preserved up to the integer
rounding of one dimension (cross-multiplied bound). -/
theorem thumbnailFit_bounds (w h : ℕ) (hw : 1 ≤ w) (hh : 1 ≤ h) :
    (thumbnailFit w h).1 ≤ 1024 ∧ (thumbnailFit w h).2 ≤ 1024 ∧
    1 ≤ (thumbnailFit w h).1 ∧ 1 ≤ (thumbnailFit w h).2 ∧
    |((thumbnailFit w h).1 : ℚ) * h - ((thumbnailFit w h).2 : ℚ) * w| ≤
      (max w h : ℚ) := by
  have hwQ : (0 : ℚ) < w := by
    exact_mod_cast Nat.lt_of_lt_of_le Nat.zero_lt_one hw
  have hhQ : (0 : ℚ) < h := by
    exact_mod_cast Nat.lt_of_lt_of_le Nat.zero_lt_one hh
  unfold thumbnailFit
  split_ifs with hfit hasp
  · refine ⟨hfit.1, hfit.2, hw, hh, ?_⟩
    rw [mul_comm]
    simp only [sub_self, abs_zero]
    positivity
  · obtain ⟨h1, h1024, hnear⟩ := tallWidth_bounds w h hw hh hasp
    refine ⟨h1024, le_refl _, h1, by norm_num, ?_⟩
    have hkey : ((tallWidth w h : ℕ) : ℚ) * h - (1024 : ℚ) * w =
        (((tallWidth w h : ℕ) : ℚ) - 1024 * ((w : ℚ) / h)) * h := by
      field_simp
    push_cast
    rw [hkey, abs_mul, abs_of_pos hhQ]
    calc |((tallWidth w h : ℕ) : ℚ) - 1024 * ((w : ℚ) / h)| * h
        ≤ 1 * h := mul_le_mul_of_nonneg_right hnear (le_of_lt hhQ)
      _ = (h : ℚ) := one_mul _
      _ ≤ (w : ℚ) ⊔ (h : ℚ) := le_sup_right
  · obtain ⟨h1, h1024, hnear⟩ := wideHeight_bounds w h hw hh
      (lt_of_not_ge hasp)
    refine ⟨le_refl _, h1024, by norm_num, h1, ?_⟩
    have hkey : (1024 : ℚ) * h - ((wideHeight w h : ℕ) : ℚ) * w =
        (1024 / ((w : ℚ) / h) - ((wideHeight w h : ℕ) : ℚ)) * w := by
      field_simp
      ring
    push_cast
    rw [hkey, abs_mul, abs_of_pos hwQ, abs_sub_comm]
    calc |((wideHeight w h : ℕ) : ℚ) - 1024 / ((w : ℚ) / h)| * w
        ≤ 1 * w := mul_le_mul_of_nonneg_right hnear (le_of_lt hwQ)
      _ = (w : ℚ) := one_mul _
      _ ≤ (w : ℚ) ⊔ (h : ℚ) := le_sup_left

/-- A batch fails as a whole when any of its records fails to parse. -/
theorem parseBatch_error_of_mem (records : List Json) (r : Json)
    (hr : r ∈ records) (he : (parseRecord r).isOk = false) :
    (parseBatch records).isOk = false := by
  induction records with
  | nil => cases hr
  | cons x xs ih =>
    unfold parseBatch
    rw [List.mapM_cons]
    cases hpx : parseRecord x with
    | error e => rfl
    | ok m =>
      rw [exceptOk_bind]
      rcases List.mem_cons.mp hr with hx | hx
      · rw [hx, hpx] at he
        simp [Except.isOk, Except.toBool] at he
      · have hxs := ih hx
        unfold parseBatch at hxs
        cases hm2 : xs.mapM parseRecord with
        | error e => rfl
        | ok ms =>
          rw [hm2] at hxs
          simp [Except.isOk, Except.toBool] at hxs

theorem formatted_ne_of_length (a b sufa sufb : String) (m : String)
    (h : a.length + sufa.length ≠ b.length + sufb.length) :
    a ++ m ++ sufa ≠ b ++ m ++ sufb := by
  intro heq
  have hlen := congrArg String.length heq
  simp only [String.length_append] at hlen
  omega

theorem mapM_ok_length {α β : Type} (f : α → Except String β) :
    ∀ (l : List α) (res : List β), l.mapM f = .ok res → res.length = l.length := by
  intro l
  induction l with
  | nil =>
    intro res h
    simp only [List.mapM_nil, pure] at h
    cases h
    rfl
  | cons x xs ih =>
    intro res h
    rw [List.mapM_cons] at h
    cases hfx : f x with
    | error e => rw [hfx] at h; simp [exceptError_bind] at h
    | ok y =>
      rw [hfx, exceptOk_bind] at h
      cases hxs : xs.mapM f with
      | error e => rw [hxs] at h; simp [exceptError_bind] at h
      | ok ys =>
        rw [hxs, exceptOk_bind] at h
        cases h
        simp [ih ys hxs]

end TreeSpec

namespace TreeSpec

/-- C1. The confidence bucket is a total function of the percentage
score with no gaps or overlaps: for every score `s`, the bucket is High
iff `s ≥ 70`, Low iff `s < 40`, and Medium otherwise (`40 ≤ s < 70`). -/
theorem confidence_bucket_total (s : ℚ) :
    (get_confidence_class s = "confidence-high" ↔ 70 ≤ s) ∧
    (get_confidence_class s = "confidence-low" ↔ s < 40) ∧
    (get_confidence_class s = "confidence-medium" ↔ 40 ≤ s ∧ s < 70) := by
  unfold get_confidence_class
  split_ifs with h1 h2
  · exact ⟨iff_of_true rfl h1,
      iff_of_false (by decide) (by intro hlt; linarith),
      iff_of_false (by decide) (by intro hm; linarith [hm.2])⟩
  · exact ⟨iff_of_false (by decide) h1,
      iff_of_false (by decide) (not_lt.mpr h2),
      iff_of_true rfl ⟨h2, lt_of_not_ge h1⟩⟩
  · exact ⟨iff_of_false (by decide) h1,
      iff_of_true rfl (lt_of_not_ge h2),
      iff_of_false (by decide) (by intro hm; exact h2 hm.1)⟩

/-- C9. The two confidence-classification functions agree on the bucket
for every score: `get_confidence_class s` is `"confidence-high"` exactly
when `format_confidence s` is the High-Confidence string for `s`, and
likewise for Medium and Low. -/
theorem confidence_functions_agree (s : ℚ) :
    (get_confidence_class s = "confidence-high" ↔
      format_confidence s = "🟢 " ++ toString s ++ "% (High Confidence)") ∧
    (get_confidence_class s = "confidence-medium" ↔
      format_confidence s = "🟡 " ++ toString s ++ "% (Medium Confidence)") ∧
    (get_confidence_class s = "confidence-low" ↔
      format_confidence s = "🔴 " ++ toString s ++ "% (Low Confidence)") := by
  unfold get_confidence_class format_confidence
  split_ifs
  · exact ⟨iff_of_true rfl rfl,
      iff_of_false (by decide)
        (formatted_ne_of_length _ _ _ _ _ (by decide)),
      iff_of_false (by decide)
        (formatted_ne_of_length _ _ _ _ _ (by decide))⟩
  · exact ⟨iff_of_false (by decide)
        (formatted_ne_of_length _ _ _ _ _ (by decide)),
      iff_of_true rfl rfl,
      iff_of_false (by decide)
        (formatted_ne_of_length _ _ _ _ _ (by decide))⟩
  · exact ⟨iff_of_false (by decide)
        (formatted_ne_of_length _ _ _ _ _ (by decide)),
      iff_of_false (by decide)
        (formatted_ne_of_length _ _ _ _ _ (by decide)),
      iff_of_true rfl rfl⟩

/-- C2. The classification outcome mapping is exhaustive and exclusive:
a 200 response whose JSON object body has a non-empty `results` array
yields Success with exactly that array; a 200 response whose body has an
empty or missing `results` array yields Empty; any non-200 status yields
ApiError carrying the status code and the body text verbatim,
independently of whether the body would parse as JSON; a timeout yields
Timeout; any other request failure yields NetworkError with its message;
and Timeout and NetworkError are distinct outcomes. -/
theorem outcome_mapping (text : String) (kvs : List (String × Json))
    (l : List Json) (status : ℕ) (parsed : Option Json) (msg : String) :
    (kvs.lookup "results" = some (.arr l) → l ≠ [] →
      classify (.response 200 text (some (.obj kvs))) = .success l) ∧
    (kvs.lookup "results" = none ∨ kvs.lookup "results" = some (.arr []) →
      classify (.response 200 text (some (.obj kvs))) = .empty) ∧
    (status ≠ 200 →
      classify (.response status text parsed) = .apiError status text) ∧
    classify .timeoutExn = .timeout ∧
    classify (.requestExn msg) = .networkError msg ∧
    Outcome.timeout ≠ Outcome.networkError msg := by
  refine ⟨fun hres hne => ?_, fun hres => ?_, fun hstatus => ?_, rfl, rfl,
    fun h => by cases h⟩
  · simp [classify, hres, Json.truthy, hne]
  · rcases hres with hres | hres <;> simp [classify, hres, Json.truthy]
  · simp [classify, hstatus]

/-- Witness for `outcome_mapping`: the scenarios B, C, D of the spec at
concrete inputs. -/
theorem outcome_mapping_witness :
    classify (.response 200 ""
        (some (.obj [("results", Json.arr [Json.null])]))) =
      .success [Json.null] ∧
    classify (.response 200 "" (some (.obj [("results", Json.arr [])]))) =
      .empty ∧
    classify (.response 403 "invalid api key" none) =
      .apiError 403 "invalid api key" ∧
    classify .timeoutExn = .timeout ∧
    classify (.requestExn "connection reset") =
      .networkError "connection reset" ∧
    Outcome.timeout ≠ Outcome.networkError "connection reset" :=
  ⟨(outcome_mapping "" [("results", .arr [Json.null])] [Json.null] 403 none
      "connection reset").1 rfl (by simp),
   (outcome_mapping "" [("results", .arr [])] [] 403 none
      "connection reset").2.1 (Or.inr rfl),
   (outcome_mapping "invalid api key" [] [] 403 none
      "connection reset").2.2.1 (by decide),
   (outcome_mapping "" [] [] 403 none "connection reset").2.2.2.1,
   (outcome_mapping "" [] [] 403 none "connection reset").2.2.2.2.1,
   (outcome_mapping "" [] [] 403 none "connection reset").2.2.2.2.2⟩

/-- C7. For every identification request with one or two normalized
images, the client builds a single multipart form submission in which
each image appears under the shared field name `images` with a distinct
filename and an `image/png` content type, and the API credential is sent
as the query parameter `api-key`, not as a form field. -/
theorem request_assembly (apiKey : String) (hasSecond : Bool) :
    (∀ p ∈ (buildRequest apiKey hasSecond).files,
      p.field = "images" ∧ p.contentType = "image/png") ∧
    (buildRequest apiKey hasSecond).files.length =
      (if hasSecond then 2 else 1) ∧
    ((buildRequest apiKey hasSecond).files.map FormPart.filename).Nodup ∧
    (buildRequest apiKey hasSecond).params = [("api-key", apiKey)] ∧
    (∀ p ∈ (buildRequest apiKey hasSecond).files, p.field ≠ "api-key") ∧
    (buildRequest apiKey hasSecond).url = API_URL ∧
    (buildRequest apiKey hasSecond).timeoutSeconds = 30 := by
  cases hasSecond <;> simp [buildRequest]

/-- Witness for `request_assembly`: the two-image request with a concrete
key. -/
theorem request_assembly_witness :
    (∀ p ∈ (buildRequest "secret" true).files,
      p.field = "images" ∧ p.contentType = "image/png") ∧
    (buildRequest "secret" true).files.length = (if true then 2 else 1) ∧
    ((buildRequest "secret" true).files.map FormPart.filename).Nodup ∧
    (buildRequest "secret" true).params = [("api-key", "secret")] ∧
    (∀ p ∈ (buildRequest "secret" true).files, p.field ≠ "api-key") ∧
    (buildRequest "secret" true).url = API_URL ∧
    (buildRequest "secret" true).timeoutSeconds = 30 :=
  request_assembly "secret" true

/-- C8, counterexample. The normalizer is not a pure in-memory
transformation and the pipeline has filesystem side effects besides the
network call: `process_image` writes and reopens a file, and the handler
trace contains a write to `images/img1.png`, so it is not the single
network call. -/
theorem pipeline_has_fs_effects :
    processImageEffects "images/img1.png" ≠ [] ∧
    Eff.fsWrite "images/img1.png" ∈ pipelineEffects false ∧
    Eff.fsWrite "images/img1.png" ∈ pipelineEffects true ∧
    pipelineEffects false ≠ [Eff.netPost API_URL] ∧
    pipelineEffects true ≠ [Eff.netPost API_URL] := by decide

/-- C8, amended. On a run in which every step completes, the pipeline
performs exactly one network call (to the fixed endpoint), but
`process_image` writes each normalized image to a temp file under the
`images` directory and reopens it; the handler also creates the directory
and closes and removes the temp files, and on such a run every temp file
written is later removed.  The cleanup is conditional: normalization runs
before the `try` block, so a two-image run whose second normalization
raises has already written `images/img1.png`, and it ends with no network
call and no close or removal of that file. -/
theorem pipeline_effects_description :
    (∀ two : Bool,
      (pipelineEffects two).filter isNetEff = [Eff.netPost API_URL]) ∧
    (∀ two : Bool, ∀ f : String,
      Eff.fsWrite f ∈ pipelineEffects two → Eff.fsRemove f ∈ pipelineEffects two) ∧
    processImageEffects "images/img1.png" =
      [Eff.fsWrite "images/img1.png", Eff.fsOpen "images/img1.png"] ∧
    Eff.makeDirs "images" ∈ pipelineEffects false ∧
    Eff.fsWrite "images/img2.png" ∈ pipelineEffects true ∧
    Eff.fsWrite "images/img1.png" ∈ pipelineEffectsSecondFails ∧
    pipelineEffectsSecondFails.filter isNetEff = [] ∧
    Eff.fsRemove "images/img1.png" ∉ pipelineEffectsSecondFails ∧
    Eff.fsClose "images/img1.png" ∉ pipelineEffectsSecondFails := by
  refine ⟨by decide, ?_, rfl, by decide, by decide, by decide, by decide,
    by decide, by decide⟩
  intro two f hf
  cases two <;> simp [pipelineEffects, processImageEffects] at hf ⊢ <;>
    exact hf

/-- Witness for `pipeline_effects_description`: the write of the second
temp file in a two-image run is matched by its removal. -/
theorem pipeline_effects_description_witness :
    Eff.fsRemove "images/img2.png" ∈ pipelineEffects true :=
  pipeline_effects_description.2.1 true "images/img2.png" (by decide)

/-- C5, counterexample. Defensive parsing does not survive every
malformed record: a record whose `species` field is present but null
raises AttributeError inside the display loop, aborting parsing of the
whole batch even when every other record is fine. -/
theorem malformed_record_aborts_batch :
    wfRecord (mkScoreRecord 1) = true ∧
    wfRecord nullSpeciesRecord = false ∧
    parseBatch [mkScoreRecord 1, nullSpeciesRecord] =
      .error "AttributeError" ∧
    (parseBatch [mkScoreRecord 1, nullSpeciesRecord]).isOk = false :=
  ⟨by decide, by decide, rfl, rfl⟩

/-- C5, amended. For every batch of result records that are JSON objects
whose present fields are well-typed, parsing succeeds with one match per
record, and each missing nested field of a record is replaced by its
sentinel default ("Unknown Species", "Unknown Family", "Unknown Genus",
empty common-names list).  Parsing is not fully defensive, though: a
record whose `species` field is present with a non-object value (such as
null) raises AttributeError, and any batch containing such a record fails
as a whole. -/
theorem defensive_parsing (records : List Json)
    (kvs skvs : List (String × Json))
    (kvsB : List (String × Json)) (vB : Json) (recordsB : List Json)
    (hwf : ∀ r ∈ records, wfRecord r = true)
    (hrec : wfRecord (.obj kvs) = true)
    (hspec : kvs.lookup "species" = some (.obj skvs))
    (hvB : kvsB.lookup "species" = some vB)
    (hnotobj : ∀ s2, vB ≠ .obj s2)
    (hmem : Json.obj kvsB ∈ recordsB) :
    (parseBatch records).map List.length = .ok records.length ∧
    (skvs.lookup "scientificNameWithoutAuthor" = none →
      (parseRecord (.obj kvs)).map SpeciesMatch.name =
        .ok (.str "Unknown Species")) ∧
    (skvs.lookup "commonNames" = none →
      (parseRecord (.obj kvs)).map SpeciesMatch.common = .ok (.arr [])) ∧
    (skvs.lookup "family" = none →
      (parseRecord (.obj kvs)).map SpeciesMatch.family =
        .ok (.str "Unknown Family")) ∧
    (skvs.lookup "genus" = none →
      (parseRecord (.obj kvs)).map SpeciesMatch.genus =
        .ok (.str "Unknown Genus")) ∧
    parseRecord (.obj kvsB) = .error "AttributeError" ∧
    (parseBatch recordsB).isOk = false := by
  have herr : parseRecord (.obj kvsB) = .error "AttributeError" := by
    cases vB with
    | obj s2 => exact absurd rfl (hnotobj s2)
    | null =>
      simp [parseRecord, dictGet, hvB, exceptOk_bind, exceptError_bind]
    | bool b =>
      simp [parseRecord, dictGet, hvB, exceptOk_bind, exceptError_bind]
    | num q2 =>
      simp [parseRecord, dictGet, hvB, exceptOk_bind, exceptError_bind]
    | str s2 =>
      simp [parseRecord, dictGet, hvB, exceptOk_bind, exceptError_bind]
    | arr l2 =>
      simp [parseRecord, dictGet, hvB, exceptOk_bind, exceptError_bind]
  obtain ⟨q, hq⟩ := wf_score_num kvs hrec
  obtain ⟨fkvs, hf⟩ := wf_family_obj kvs skvs hrec hspec
  obtain ⟨gkvs, hg⟩ := wf_genus_obj kvs skvs hrec hspec
  have heval := parseRecord_obj_eval kvs skvs fkvs gkvs q
    (by rw [hspec]; rfl) hq hf hg
  refine ⟨wf_parseBatch_length records hwf, fun hname => ?_,
    fun hcommon => ?_, fun hfam => ?_, fun hgen => ?_, herr,
    parseBatch_error_of_mem recordsB _ hmem (by rw [herr]; rfl)⟩
  · rw [heval]; simp [Except.map, hname]
  · rw [heval]; simp [Except.map, hcommon]
  · rw [hfam] at hf
    simp at hf
    rw [heval]
    simp [Except.map, hf]
  · rw [hgen] at hg
    simp at hg
    rw [heval]
    simp [Except.map, hg]

/-- Witness for `defensive_parsing`: a single record whose species object
is empty (every nested field falls back to its sentinel), and a batch
holding a record whose species is null (it aborts). -/
theorem defensive_parsing_witness :
    (parseBatch [Json.obj [("species", Json.obj [])]]).map List.length =
      .ok [Json.obj [("species", Json.obj [])]].length ∧
    (([] : List (String × Json)).lookup "scientificNameWithoutAuthor" = none →
      (parseRecord (.obj [("species", Json.obj [])])).map SpeciesMatch.name =
        .ok (.str "Unknown Species")) ∧
    (([] : List (String × Json)).lookup "commonNames" = none →
      (parseRecord (.obj [("species", Json.obj [])])).map SpeciesMatch.common =
        .ok (.arr [])) ∧
    (([] : List (String × Json)).lookup "family" = none →
      (parseRecord (.obj [("species", Json.obj [])])).map SpeciesMatch.family =
        .ok (.str "Unknown Family")) ∧
    (([] : List (String × Json)).lookup "genus" = none →
      (parseRecord (.obj [("species", Json.obj [])])).map SpeciesMatch.genus =
        .ok (.str "Unknown Genus")) ∧
    parseRecord (.obj [("species", Json.null)]) = .error "AttributeError" ∧
    (parseBatch [Json.obj [("species", Json.null)]]).isOk = false :=
  defensive_parsing [Json.obj [("species", Json.obj [])]]
    [("species", Json.obj [])] [] [("species", Json.null)] Json.null
    [Json.obj [("species", Json.null)]] (by decide) (by decide) rfl rfl
    (fun s2 h => Json.noConfusion h) (List.mem_singleton.mpr rfl)

/-- C3. For every non-empty results list and every maxResults value, the
aggregate statistics are computed over the full untruncated results list
(the stats agree across different maxResults values; the count is the
full list length; best and mean are the max and the mean of the scores of
the full list), while only the displayed list is truncated to maxResults
entries. -/
theorem stats_over_full_list (results : List Json) (maxR maxRB : ℕ)
    (out outB : List SpeciesMatch × AggregateStats)
    (_hne : results ≠ [])
    (h : interpretAll results maxR = .ok out)
    (hB : interpretAll results maxRB = .ok outB) :
    out.2 = outB.2 ∧
    out.2.count = results.length ∧
    out.1.length = min maxR results.length ∧
    ∃ scores, results.mapM aggScore = .ok scores ∧
      out.2.best = listMax scores ∧
      out.2.avg = listSum scores / results.length := by
  unfold interpretAll at h hB
  cases hp : parseBatch (results.take maxR) with
  | error e => rw [hp, exceptError_bind] at h; cases h
  | ok d =>
    rw [hp, exceptOk_bind] at h
    cases hpB : parseBatch (results.take maxRB) with
    | error e => rw [hpB, exceptError_bind] at hB; cases hB
    | ok dB =>
      rw [hpB, exceptOk_bind] at hB
      cases hs : results.mapM aggScore with
      | error e => rw [hs, exceptError_bind] at h; cases h
      | ok scores =>
        rw [hs, exceptOk_bind] at h hB
        simp only [pure, Except.pure] at h hB
        cases h
        cases hB
        refine ⟨rfl, rfl, ?_, scores, rfl, rfl, rfl⟩
        have hlen := mapM_ok_length parseRecord (results.take maxR) d hp

        simpa [List.length_take] using hlen

/-- Witness for `stats_over_full_list`: a single defaulted record,
displayed with maxResults 1 and 3; both runs agree on the statistics. -/
theorem stats_over_full_list_witness :
    (([(⟨.str "Unknown Species", .arr [], 0, .str "Unknown Family",
          .str "Unknown Genus"⟩ : SpeciesMatch)],
       (⟨1, 0, 0⟩ : AggregateStats)).2 =
      ([(⟨.str "Unknown Species", .arr [], 0, .str "Unknown Family",
          .str "Unknown Genus"⟩ : SpeciesMatch)],
       (⟨1, 0, 0⟩ : AggregateStats)).2) ∧
    ((⟨1, 0, 0⟩ : AggregateStats)).count = [Json.obj []].length ∧
    ([(⟨.str "Unknown Species", .arr [], 0, .str "Unknown Family",
        .str "Unknown Genus"⟩ : SpeciesMatch)].length =
      min 1 [Json.obj []].length) ∧
    ∃ scores, [Json.obj []].mapM aggScore = .ok scores ∧
      (0 : ℚ) = listMax scores ∧
      (0 : ℚ) = listSum scores / [Json.obj []].length := by
  have hev1 : interpretAll [Json.obj []] 1 =
      .ok ([⟨.str "Unknown Species", .arr [], 0, .str "Unknown Family",
             .str "Unknown Genus"⟩], ⟨1, 0, 0⟩) := by
    norm_num [interpretAll, parseBatch, parseRecord, dictGet, asNum, aggScore,
      pyRound2, pyRoundInt, List.mapM, List.mapM.loop, listSum, listMax,
      exceptOk_bind, exceptError_bind, exceptMap_ok]
  have hev3 : interpretAll [Json.obj []] 3 =
      .ok ([⟨.str "Unknown Species", .arr [], 0, .str "Unknown Family",
             .str "Unknown Genus"⟩], ⟨1, 0, 0⟩) := by
    norm_num [interpretAll, parseBatch, parseRecord, dictGet, asNum, aggScore,
      pyRound2, pyRoundInt, List.mapM, List.mapM.loop, listSum, listMax,
      exceptOk_bind, exceptError_bind, exceptMap_ok]
  exact stats_over_full_list [Json.obj []] 1 3 _ _ (by simp) hev1 hev3

/-- C10. A result record whose `score` field is missing is treated as
having score 0: its displayed score is 0, it is bucketed Low, and it
contributes a 0 entry to the score list from which the best-score and
mean-score aggregates are computed (leaving the sum unchanged and the
max clamped at 0). -/
theorem missing_score_defaults_to_zero (kvs : List (String × Json))
    (hrec : wfRecord (.obj kvs) = true)
    (hscore : kvs.lookup "score" = none)
    (rest : List Json) (scores : List ℚ)
    (hrest : rest.mapM aggScore = .ok scores) :
    (parseRecord (.obj kvs)).map SpeciesMatch.score = .ok 0 ∧
    get_confidence_class 0 = "confidence-low" ∧
    aggScore (.obj kvs) = .ok 0 ∧
    (Json.obj kvs :: rest).mapM aggScore = .ok (0 :: scores) ∧
    listSum (0 :: scores) = listSum scores ∧
    listMax (0 :: scores) = max 0 (listMax scores) := by
  have hagg : aggScore (.obj kvs) = .ok 0 := by
    simp only [aggScore, dictGet, hscore, Option.getD_none, exceptOk_bind,
      asNum, exceptPure_eq_ok]
    norm_num
  refine ⟨?_, ?_, hagg, ?_, ?_, ?_⟩
  · have h := wf_parseRecord_score kvs hrec 0 (by rw [hscore]; rfl)
    rw [h]
    norm_num [pyRound2, pyRoundInt]
  · norm_num [get_confidence_class]
  · rw [List.mapM_cons, hagg, exceptOk_bind, hrest, exceptOk_bind]
    rfl
  · simp [listSum, List.foldl]
  · cases scores with
    | nil => simp [listMax]
    | cons y ys =>
      simp only [listMax, List.foldl]
      rw [← foldl_max_comm]

/-- C6, counterexample. In scenario A the mean score statistic is exactly
166/3 = 55.333..., not 55.33: the code never rounds the mean to two
decimal places (it formats it to one decimal place for display). -/
theorem scenarioA_mean_not_55_33 :
    (interpretAll scenarioRecords 2).map (fun out => out.2.avg) =
      .ok (166/3) ∧
    (166 : ℚ)/3 ≠ 5533/100 := by
  refine ⟨?_, by norm_num⟩
  rw [scenarioA_eval]
  simp only [Except.map]
  norm_num [listSum, List.foldl]

/-- C6, amended. For the scenario A input (3 results with fractional
scores 0.91, 0.55, 0.20 and maxResults 2): each fractional score is
converted to a percentage rounded to 2 decimal places; the displayed list
has exactly the 2 entries with scores 91 and 55, bucketed High and
Medium; and the aggregate statistics are count 3, best score 91, and mean
score 166/3 (which is 55.33 only after rounding to 2 decimal places). -/
theorem scenarioA_results :
    (interpretAll scenarioRecords 2).map
      (fun out => (out.1.map (fun m => m.score),
        out.1.map (fun m => get_confidence_class m.score), out.2.count,
        out.2.best, out.2.avg)) =
      .ok ([91, 55], ["confidence-high", "confidence-medium"], 3, 91,
        166/3) ∧
    pyRound2 (166/3) = 5533/100 := by
  refine ⟨?_, by norm_num [pyRound2, pyRoundInt, Int.fract, round_eq]⟩
  rw [scenarioA_eval]
  have h91 : pyRound2 (91/100 * 100) = 91 := by
    norm_num [pyRound2, pyRoundInt, Int.fract, round_eq]
  have h55 : pyRound2 (55/100 * 100) = 55 := by
    norm_num [pyRound2, pyRoundInt, Int.fract, round_eq]
  simp only [Except.map, h91, h55]
  norm_num [get_confidence_class, listMax, listSum, List.foldl, sup_eq_max]

/-- C4, counterexample. The normalizer does not produce opaque RGB PNG
output for every valid input: an LA-mode image (grayscale plus alpha, a
valid PNG mode) is neither RGBA nor P, so `process_image` leaves its mode
unchanged and the output still carries an alpha channel and is not RGB;
and a CMYK-mode image (a valid JPEG mode) makes the PNG save raise
OSError, so the normalizer produces no output at all. -/
theorem normalizer_keeps_LA_alpha :
    Mode.LA ∈ pngModes ∧
    process_image ⟨.LA, 100, 100⟩ = .ok ⟨.LA, 100, 100⟩ ∧
    hasAlpha (normalizeBuffer ⟨.LA, 100, 100⟩).mode = true ∧
    (normalizeBuffer ⟨.LA, 100, 100⟩).mode ≠ .RGB ∧
    Mode.CMYK ∈ jpegModes ∧
    process_image ⟨.CMYK, 100, 100⟩ = .error "OSError" :=
  ⟨by decide, rfl, by decide, by decide, by decide, rfl⟩

/-- Bounds and mode behavior of the in-memory normalization: both output
dimensions lie in [1, 1024], the aspect ratio is preserved up to integer
rounding (cross-multiplied), RGB/RGBA/P inputs come out RGB, and every
other mode passes through unchanged. -/
theorem normalizeBuffer_bounds (img : PILImage)
    (hw : 1 ≤ img.width) (hh : 1 ≤ img.height) :
    (normalizeBuffer img).width ≤ 1024 ∧
    (normalizeBuffer img).height ≤ 1024 ∧
    1 ≤ (normalizeBuffer img).width ∧
    1 ≤ (normalizeBuffer img).height ∧
    |((normalizeBuffer img).width : ℚ) * img.height -
      ((normalizeBuffer img).height : ℚ) * img.width| ≤
      (img.width : ℚ) ⊔ (img.height : ℚ) ∧
    (img.mode = .RGB ∨ img.mode = .RGBA ∨ img.mode = .P →
      (normalizeBuffer img).mode = .RGB) ∧
    (¬(img.mode = .RGBA ∨ img.mode = .P) →
      (normalizeBuffer img).mode = img.mode) := by
  obtain ⟨m, w, h⟩ := img
  simp only at hw hh
  simp only [normalizeBuffer]
  split_ifs with hm hr hr <;> dsimp only at *
  · obtain ⟨hb1, hb2, hb3, hb4, hb5⟩ := thumbnailFit_bounds w h hw hh
    refine ⟨hb1, hb2, hb3, hb4, ?_, fun _ => rfl, fun hnm => absurd hm hnm⟩
    calc |((thumbnailFit w h).1 : ℚ) * h - ((thumbnailFit w h).2 : ℚ) * w|
        ≤ (max w h : ℚ) := hb5
      _ ≤ (w : ℚ) ⊔ (h : ℚ) := le_refl _
  · refine ⟨by omega, by omega, hw, hh, ?_, fun _ => rfl,
      fun hnm => absurd hm hnm⟩
    rw [mul_comm]
    simp only [sub_self, abs_zero]
    positivity
  · obtain ⟨hb1, hb2, hb3, hb4, hb5⟩ := thumbnailFit_bounds w h hw hh
    refine ⟨hb1, hb2, hb3, hb4, ?_, fun hmode => ?_, fun _ => rfl⟩
    · calc |((thumbnailFit w h).1 : ℚ) * h - ((thumbnailFit w h).2 : ℚ) * w|
          ≤ (max w h : ℚ) := hb5
        _ ≤ (w : ℚ) ⊔ (h : ℚ) := le_refl _
    · rcases hmode with hmode | hmode | hmode
      · exact hmode
      · exact absurd (Or.inl hmode) hm
      · exact absurd (Or.inr hmode) hm
  · refine ⟨by omega, by omega, hw, hh, ?_, fun hmode => ?_, fun _ => rfl⟩
    · rw [mul_comm]
      simp only [sub_self, abs_zero]
      positivity
    · rcases hmode with hmode | hmode | hmode
      · exact hmode
      · exact absurd (Or.inl hmode) hm
      · exact absurd (Or.inr hmode) hm

/-- A mode saves as PNG exactly when it is not CMYK. -/
theorem pngSaveOk_iff (m : Mode) : pngSaveOk m = true ↔ m ≠ Mode.CMYK := by
  cases m <;> simp [pngSaveOk]

/-- C4, amended. A CMYK input (valid JPEG) makes the PNG save raise
OSError, so the normalizer yields no output.  For every other input with
positive dimensions the normalizer succeeds, the output has both
dimensions in [1, 1024] and preserves the aspect ratio up to the integer
rounding of the scaled dimension; for inputs whose decoded mode is RGB,
RGBA or P the output is opaque RGB, and inputs in other modes (such as
LA) keep their mode. -/
theorem normalizer_bounded_rgb (img : PILImage)
    (hw : 1 ≤ img.width) (hh : 1 ≤ img.height) :
    (img.mode = .CMYK → process_image img = .error "OSError") ∧
    (img.mode ≠ .CMYK → ∃ out, process_image img = .ok out ∧
      out.width ≤ 1024 ∧ out.height ≤ 1024 ∧
      1 ≤ out.width ∧ 1 ≤ out.height ∧
      |(out.width : ℚ) * img.height - (out.height : ℚ) * img.width| ≤
        (img.width : ℚ) ⊔ (img.height : ℚ) ∧
      (img.mode = .RGB ∨ img.mode = .RGBA ∨ img.mode = .P →
        out.mode = .RGB ∧ hasAlpha out.mode = false) ∧
      (¬(img.mode = .RGBA ∨ img.mode = .P) → out.mode = img.mode)) := by
  obtain ⟨hb1, hb2, hb3, hb4, hb5, hbm, hbp⟩ := normalizeBuffer_bounds img hw hh
  constructor
  · intro hcm
    have hmode : (normalizeBuffer img).mode = Mode.CMYK := by
      rw [hbp (by rw [hcm]; decide)]
      exact hcm
    simp [process_image, hmode, pngSaveOk]
  · intro hncm
    have hok : pngSaveOk (normalizeBuffer img).mode = true := by
      by_cases hm : img.mode = .RGBA ∨ img.mode = .P
      · have hrgb : (normalizeBuffer img).mode = .RGB := by
          apply hbm
          rcases hm with h | h
          · exact Or.inr (Or.inl h)
          · exact Or.inr (Or.inr h)
        rw [hrgb]
        rfl
      · rw [hbp hm]
        exact (pngSaveOk_iff img.mode).mpr hncm
    refine ⟨normalizeBuffer img, ?_, hb1, hb2, hb3, hb4, hb5, ?_, hbp⟩
    · simp [process_image, hok]
    · intro hmode
      have h := hbm hmode
      exact ⟨h, by rw [h]; rfl⟩

/-- Witness for `normalizer_bounded_rgb`: an oversized RGBA image. -/
theorem normalizer_bounded_rgb_witness :
    (Mode.RGBA = Mode.CMYK →
      process_image ⟨.RGBA, 2048, 1024⟩ = .error "OSError") ∧
    (Mode.RGBA ≠ Mode.CMYK → ∃ out,
      process_image ⟨.RGBA, 2048, 1024⟩ = .ok out ∧
      out.width ≤ 1024 ∧ out.height ≤ 1024 ∧
      1 ≤ out.width ∧ 1 ≤ out.height ∧
      |(out.width : ℚ) * (1024 : ℕ) - (out.height : ℚ) * (2048 : ℕ)| ≤
        ((2048 : ℕ) : ℚ) ⊔ ((1024 : ℕ) : ℚ) ∧
      (Mode.RGBA = Mode.RGB ∨ Mode.RGBA = Mode.RGBA ∨ Mode.RGBA = Mode.P →
        out.mode = .RGB ∧ hasAlpha out.mode = false) ∧
      (¬(Mode.RGBA = Mode.RGBA ∨ Mode.RGBA = Mode.P) →
        out.mode = Mode.RGBA)) :=
  normalizer_bounded_rgb ⟨.RGBA, 2048, 1024⟩ (by norm_num) (by norm_num)

/-- Witness for `missing_score_defaults_to_zero`: the empty record in a
batch by itself. -/
theorem missing_score_defaults_to_zero_witness :
    (parseRecord (.obj ([] : List (String × Json)))).map SpeciesMatch.score =
      .ok 0 ∧
    get_confidence_class 0 = "confidence-low" ∧
    aggScore (.obj ([] : List (String × Json))) = .ok 0 ∧
    (Json.obj ([] : List (String × Json)) :: []).mapM aggScore =
      .ok (0 :: []) ∧
    listSum (0 :: []) = listSum [] ∧
    listMax (0 :: []) = max 0 (listMax []) :=
  missing_score_defaults_to_zero [] (by decide) rfl [] [] rfl

end TreeSpec
